import Mathlib

/-!
Verification of the USFX-to-TSV streaming parser (`src/main.rs`).

The development shallowly embeds the event-processing loop of
`UsfxParser::parse`: the external tokenizer is modelled as a list of read
results (events or a tokenizer error), the output sink (`Box<dyn Write>`)
as an append-only string with an optional capacity after which writes fail,
and the loop as a fold over the list that threads the parser context
(`state`, `in_content`, `last_state`, sink) and stops at the first error or
at the end-of-file event, exactly as the `loop { match ... }` in the source.
-/

namespace UsfxToTsv

/-- Parser states, mirroring `enum ParserState` in `src/main.rs`. -/
inductive ParserState
  | Book
  | Initial
  | InVerse
  | InWord
  | InSection
  | InFootnote
  | InCrossReference
  | VerseEnd
  deriving DecidableEq, Repr

/-- Configuration options, mirroring `struct UsfxConfig`. -/
structure UsfxConfig where
  buffer_size : Nat
  trim_text : Bool
  debug_output : Bool
  deriving DecidableEq, Repr

/-- The `Default` impl for `UsfxConfig`. -/
def UsfxConfig.default : UsfxConfig :=
  { buffer_size := 1024, trim_text := true, debug_output := false }

/-- Error type, mirroring `enum ParserError`. `FileError` is produced only by
`UsfxParser::new`, which is outside the parse loop; the loop produces
`XmlError` (tokenizer failure) and `ParseError` (unescape, decode or write
failure). -/
inductive ParserError
  | FileError
  | XmlError
  | ParseError (msg : String)
  deriving DecidableEq, Repr

/-- One attribute as yielded by the tokenizer's attribute iterator on a
self-closing element. `err` models a failed attribute read or a key that is
not valid UTF-8 (both abort via `map_err` before the key comparison); `ok`
carries the decoded key and, for the value, `none` when the value bytes are
not valid UTF-8 (checked in the source only when the key is `bcv`). -/
inductive AttrResult
  | err
  | ok (key : String) (value : Option String)
  deriving DecidableEq, Repr

/-- Tokenizer events, mirroring the `quick_xml::events::Event` cases that the
loop distinguishes. A text payload of `none` models a payload on which
`unescape` fails; `other` collects every event kind the loop ignores via its
final `_ => ()` arm (CData, comments, declarations, ...). -/
inductive XmlEvent
  | startTag (name : String)
  | endTag (name : String)
  | text (payload : Option String)
  | emptyTag (name : String) (attrs : List AttrResult)
  | eof
  | other
  deriving DecidableEq, Repr

/-- One result of `reader.read_event_into`: an event, or a tokenizer error. -/
inductive ReadResult
  | ok (e : XmlEvent)
  | err
  deriving DecidableEq, Repr

/-- The output sink. `written` is everything successfully written so far;
`cap`, when present, is the capacity after which a write fails, modelling an
I/O error from the caller-supplied `Box<dyn Write>` (`cap = none` is a sink
that never fails). -/
structure Sink where
  written : String
  cap : Option Nat
  deriving DecidableEq, Repr

/-- Write a string to the sink: appends on success, fails (leaving the sink
unchanged) when the capacity would be exceeded, mirroring the
`.map_err(|e| ParserError::ParseError(e.to_string()))` wrapping in the
source. -/
def Sink.write (s : Sink) (t : String) : Sink × Option ParserError :=
  match s.cap with
  | none => ({ s with written := s.written ++ t }, none)
  | some n =>
      if s.written.length + t.length ≤ n then
        ({ s with written := s.written ++ t }, none)
      else
        (s, some (ParserError.ParseError "write failed"))

/-- Whitespace test used by `str::trim`, restricted to the ASCII whitespace
characters (space, tab, newline, carriage return); the Unicode-only
whitespace code points of Rust's `char::is_whitespace` play no role in this
development. -/
def isWsChar (ch : Char) : Bool :=
  ch == ' ' || ch == '\t' || ch == '\n' || ch == '\r'

/-- Embedding of Rust's `str::trim`: drop leading and trailing whitespace.
Defined over the character list so that it evaluates by kernel reduction. -/
def strTrim (s : String) : String :=
  { data := ((s.data.dropWhile isWsChar).reverse.dropWhile isWsChar).reverse }

/-- Embedding of Rust's `str::split(sep)` for a single-character separator:
splitting never yields an empty list, an input without the separator yields
one component, and each separator occurrence opens a new component (so
`"".split('.')` is `[""]`, matching Rust). -/
def splitOnChar (sep : Char) : List Char → List (List Char)
  | [] => [[]]
  | ch :: rest =>
    if ch == sep then [] :: splitOnChar sep rest
    else
      match splitOnChar sep rest with
      | [] => [[ch]]
      | h :: t => (ch :: h) :: t

/-- Rust's `value.split(sep).collect::<Vec<&str>>()` on a string. -/
def splitChar (sep : Char) (s : String) : List String :=
  (splitOnChar sep s.data).map (fun l => { data := l })

/-- The mutable context threaded through the parse loop: `self.state`, the
local variables `in_content` and `last_state`, and the output sink. -/
structure ParseCtx where
  state : ParserState
  in_content : Bool
  last_state : ParserState
  sink : Sink
  deriving DecidableEq, Repr

/-- One `write!(self.output, ...)?` site: write to the sink and propagate a
write failure as the accompanying error. -/
def writeOut (c : ParseCtx) (t : String) : ParseCtx × Option ParserError :=
  let (sk, e) := c.sink.write t
  ({ c with sink := sk }, e)

/-- The `Ok(Event::Start(e))` arm: state transitions keyed on the tag name;
`w` and `v` transition only when `in_content` holds; `s` also clears
`in_content`; unknown names are a no-op. -/
def handleStart (c : ParseCtx) (name : String) : ParseCtx :=
  if name = "book" then { c with state := ParserState.Book }
  else if name = "ve" then { c with state := ParserState.VerseEnd }
  else if name = "w" then
    if c.in_content then { c with state := ParserState.InWord } else c
  else if name = "v" then
    if c.in_content then { c with state := ParserState.InVerse } else c
  else if name = "s" then { c with state := ParserState.InSection, in_content := false }
  else if name = "f" then { c with state := ParserState.InFootnote }
  else if name = "x" then { c with state := ParserState.InCrossReference }
  else c

/-- The `Ok(Event::End(e))` arm: state transitions keyed on the tag name;
unknown names are a no-op. -/
def handleEnd (c : ParseCtx) (name : String) : ParseCtx :=
  if name = "ve" then { c with state := ParserState.Initial }
  else if name = "w" then { c with state := ParserState.InVerse }
  else if name = "v" then { c with state := ParserState.InVerse }
  else if name = "s" then { c with state := ParserState.Initial }
  else if name = "f" then { c with state := ParserState.Initial }
  else if name = "x" then { c with state := ParserState.Initial }
  else c

/-- The text preprocessing applied before the emission match: `text.trim()`
when `config.trim_text` is set, the raw text otherwise. -/
def effText (cfg : UsfxConfig) (raw : String) : String :=
  if cfg.trim_text then strTrim raw else raw

/-- The emission gate of the `Ok(Event::Text(e))` arm:
`in_content && state != InFootnote && state != InCrossReference &&
state != InSection && state != Book`. -/
def textGate (c : ParseCtx) : Bool :=
  c.in_content && !(c.state == ParserState.InFootnote)
    && !(c.state == ParserState.InCrossReference)
    && !(c.state == ParserState.InSection)
    && !(c.state == ParserState.Book)

/-- The emission part of the `Ok(Event::Text(e))` arm. When the gate holds,
the payload is unescaped (failure aborts), trimmed per the configuration, and
matched on the state: `InVerse` writes the text verbatim except that exactly
`"\n"` becomes `"^"`; `InWord` writes the text bare after
`last_state = Initial`, nothing after `last_state = InWord`, and with one
leading space otherwise; any other state writes nothing. -/
def emitText (cfg : UsfxConfig) (c : ParseCtx) (payload : Option String) :
    ParseCtx × Option ParserError :=
  if textGate c then
    match payload with
    | none => (c, some (ParserError.ParseError "Failed to unescape text"))
    | some raw =>
      let text := effText cfg raw
      match c.state with
      | ParserState.InVerse =>
          if text = "\n" then writeOut c "^" else writeOut c text
      | ParserState.InWord =>
          match c.last_state with
          | ParserState.Initial => writeOut c text
          | ParserState.InWord => (c, none)
          | _ => writeOut c (" " ++ text)
      | _ => (c, none)
  else (c, none)

/-- The whole `Ok(Event::Text(e))` arm: the emission above, followed — on
success only, since every `?` in the arm returns early — by
`last_state = self.state.clone()`. -/
def handleText (cfg : UsfxConfig) (c : ParseCtx) (payload : Option String) :
    ParseCtx × Option ParserError :=
  match emitText cfg c payload with
  | (c', none) => ({ c' with last_state := c'.state }, none)
  | (c', some e) => (c', some e)

/-- The `for attr in e.attributes()` loop of the self-closing `v` arm: a
failed attribute or key aborts; for a key equal to `bcv` a value that is not
valid UTF-8 aborts, and otherwise the value is split on `.`; exactly three
components write `part0\tpart1\tpart2\t` and set `in_content`; any other
number of components does nothing for that attribute. -/
def handleVAttrs (c : ParseCtx) : List AttrResult → ParseCtx × Option ParserError
  | [] => (c, none)
  | a :: rest =>
    match a with
    | AttrResult.err => (c, some (ParserError.ParseError "attribute error"))
    | AttrResult.ok key value =>
      if key = "bcv" then
        match value with
        | none => (c, some (ParserError.ParseError "invalid utf8"))
        | some v =>
          match splitChar '.' v with
          | [p0, p1, p2] =>
            match writeOut c (p0 ++ "\t" ++ p1 ++ "\t" ++ p2 ++ "\t") with
            | (c1, some err) => (c1, some err)
            | (c1, none) => handleVAttrs { c1 with in_content := true } rest
          | _ => handleVAttrs c rest
      else handleVAttrs c rest

/-- The `Ok(Event::Empty(e))` arm: a self-closing `ve` sets the state to
`Initial` and writes one line terminator (`writeln!`); a self-closing `v`
runs the attribute loop; every other name does nothing. -/
def handleEmpty (c : ParseCtx) (name : String) (attrs : List AttrResult) :
    ParseCtx × Option ParserError :=
  if name = "ve" then
    writeOut { c with state := ParserState.Initial } "\n"
  else if name = "v" then
    handleVAttrs c attrs
  else
    (c, none)

/-- One iteration of the parse loop on one read result. -/
def step (cfg : UsfxConfig) (c : ParseCtx) (r : ReadResult) :
    ParseCtx × Option ParserError :=
  match r with
  | ReadResult.err => (c, some ParserError.XmlError)
  | ReadResult.ok ev =>
    match ev with
    | XmlEvent.startTag n => (handleStart c n, none)
    | XmlEvent.endTag n => (handleEnd c n, none)
    | XmlEvent.text p => handleText cfg c p
    | XmlEvent.emptyTag n attrs => handleEmpty c n attrs
    | XmlEvent.eof => (c, none)
    | XmlEvent.other => (c, none)

/-- The parse loop: process read results in order, stopping at `Eof`
(`break`) or at the first error (`return Err(...)`). The returned context
carries the sink as it stands at that moment, so `sink.written` is exactly
what was written before the stop. -/
def runEvents (cfg : UsfxConfig) (c : ParseCtx) :
    List ReadResult → ParseCtx × Option ParserError
  | [] => (c, none)
  | r :: rs =>
    match r with
    | ReadResult.ok XmlEvent.eof => (c, none)
    | _ =>
      match step cfg c r with
      | (c', none) => runEvents cfg c' rs
      | (c', some e) => (c', some e)

/-- The context as initialised by `UsfxParser::new` and the head of `parse`:
state `Initial`, `in_content = false`, `last_state = Initial`, empty output.
The sink capacity is a parameter of the model; `none` is a sink that never
fails. -/
def initCtx (cap : Option Nat) : ParseCtx :=
  { state := ParserState.Initial, in_content := false,
    last_state := ParserState.Initial,
    sink := { written := "", cap := cap } }

/-- `UsfxParser::parse` on a given event stream, with a never-failing sink. -/
def parseUsfx (cfg : UsfxConfig) (events : List ReadResult) :
    ParseCtx × Option ParserError :=
  runEvents cfg (initCtx none) events

/-! ### Concrete event streams used to exercise the model -/

/-- Tokenizer events for
`<v bcv="GEN.1.1"/><w>In</w> <w>the</w> <w>beginning</w><ve/>`:
three word tokens inside an active verse, with the whitespace text nodes the
tokenizer delivers between consecutive word elements. -/
def genesisEvents : List ReadResult :=
  [ReadResult.ok (XmlEvent.emptyTag "v" [AttrResult.ok "bcv" (some "GEN.1.1")]),
   ReadResult.ok (XmlEvent.startTag "w"),
   ReadResult.ok (XmlEvent.text (some "In")),
   ReadResult.ok (XmlEvent.endTag "w"),
   ReadResult.ok (XmlEvent.text (some " ")),
   ReadResult.ok (XmlEvent.startTag "w"),
   ReadResult.ok (XmlEvent.text (some "the")),
   ReadResult.ok (XmlEvent.endTag "w"),
   ReadResult.ok (XmlEvent.text (some " ")),
   ReadResult.ok (XmlEvent.startTag "w"),
   ReadResult.ok (XmlEvent.text (some "beginning")),
   ReadResult.ok (XmlEvent.endTag "w"),
   ReadResult.ok (XmlEvent.emptyTag "ve" []),
   ReadResult.ok XmlEvent.eof]

/-- Tokenizer events for `<f><v bcv="GEN.1.1"/>hello</f>` truncated after the
text: a self-closing verse-start with a well-formed `bcv` reference occurring
while the state is `InFootnote`. -/
def verseInFootnoteEvents : List ReadResult :=
  [ReadResult.ok (XmlEvent.startTag "f"),
   ReadResult.ok (XmlEvent.emptyTag "v" [AttrResult.ok "bcv" (some "GEN.1.1")]),
   ReadResult.ok (XmlEvent.text (some "hello")),
   ReadResult.ok XmlEvent.eof]

/-- Tokenizer events for `<v bcv="GEN.1.1"/><ve/>`: a well-formed verse
immediately closed by a self-closing verse-end. -/
def verseThenEndEvents : List ReadResult :=
  [ReadResult.ok (XmlEvent.emptyTag "v" [AttrResult.ok "bcv" (some "GEN.1.1")]),
   ReadResult.ok (XmlEvent.emptyTag "ve" []),
   ReadResult.ok XmlEvent.eof]

/-- Tokenizer events for `<v bcv="GEN.1"/><ve/>`: a verse-start whose `bcv`
value splits into two components, followed by a self-closing verse-end. -/
def malformedBcvEvents : List ReadResult :=
  [ReadResult.ok (XmlEvent.emptyTag "v" [AttrResult.ok "bcv" (some "GEN.1")]),
   ReadResult.ok (XmlEvent.emptyTag "ve" []),
   ReadResult.ok XmlEvent.eof]

/-! ### Counting output lines -/

/-- Number of newline characters in a string. -/
def countNl (s : String) : Nat := s.data.count '\n'

/-- Number of self-closing `ve` events a run of the loop processes: the count
stops at the first `Eof`, like the loop itself. -/
def countVe : List ReadResult → Nat
  | [] => 0
  | r :: rs =>
    match r with
    | ReadResult.ok XmlEvent.eof => 0
    | ReadResult.ok (XmlEvent.emptyTag n _) =>
        (if n = "ve" then 1 else 0) + countVe rs
    | _ => countVe rs

/-- An attribute whose decoded reference components contain no newline
character. -/
def attrNlFree : AttrResult → Bool
  | AttrResult.err => true
  | AttrResult.ok _ none => true
  | AttrResult.ok _ (some v) => (splitChar '.' v).all (fun p => countNl p == 0)

/-- A read result that feeds no newline character into the text or reference
writes: text payloads whose effective (possibly trimmed) form is
newline-free, and attribute values whose `.`-components are newline-free. -/
def evNlFree (cfg : UsfxConfig) : ReadResult → Bool
  | ReadResult.ok (XmlEvent.text (some raw)) => countNl (effText cfg raw) == 0
  | ReadResult.ok (XmlEvent.emptyTag _ attrs) => attrs.all attrNlFree
  | _ => true

/-- Contribution of one read result to the number of line terminators the
loop writes: one for a self-closing `ve`, zero otherwise. -/
def veInc : ReadResult → Nat
  | ReadResult.ok (XmlEvent.emptyTag n _) => if n = "ve" then 1 else 0
  | _ => 0

/-! ### Basic invariants of the handlers -/

/-- A write to a sink without capacity limit appends and succeeds. -/
theorem Sink.write_cap_none (s : Sink) (t : String) (h : s.cap = none) :
    s.write t = ({ s with written := s.written ++ t }, none) := by
  unfold Sink.write
  rw [h]

/-- Newline counting distributes over string append. -/
theorem countNl_append (a b : String) :
    countNl (a ++ b) = countNl a + countNl b := by
  simp [countNl, String.data_append]

/-- A successful write appends exactly its argument. -/
theorem Sink.write_ok (s : Sink) (t : String) (s' : Sink)
    (h : s.write t = (s', none)) : s' = { s with written := s.written ++ t } := by
  unfold Sink.write at h
  split at h <;> [skip; split at h] <;> simp_all

/-- A successful write through `writeOut` appends exactly its argument to
the output and changes nothing else in the context. -/
theorem writeOut_ok (c : ParseCtx) (t : String) (c' : ParseCtx)
    (h : writeOut c t = (c', none)) :
    c' = { c with sink := { written := c.sink.written ++ t, cap := c.sink.cap } } := by
  unfold writeOut at h
  rcases hw : c.sink.write t with ⟨sk, e⟩
  rw [hw] at h
  dsimp only at h
  simp only [Prod.mk.injEq] at h
  obtain ⟨h1, h2⟩ := h
  subst h2
  have hsk := Sink.write_ok c.sink t sk hw
  rw [← h1, hsk]

/-- A successful write appends `countNl t` newline characters. -/
theorem writeOut_countNl (c : ParseCtx) (t : String) (c' : ParseCtx)
    (h : writeOut c t = (c', none)) :
    countNl c'.sink.written = countNl c.sink.written + countNl t := by
  rw [writeOut_ok c t c' h]
  simp [countNl_append]

/-- Writing touches only the sink: state, content flag and `last_state` are
unchanged whether or not the write succeeds. -/
theorem writeOut_frame (c : ParseCtx) (t : String) :
    (writeOut c t).1.state = c.state ∧ (writeOut c t).1.in_content = c.in_content ∧
    (writeOut c t).1.last_state = c.last_state := by
  unfold writeOut
  rcases c.sink.write t with ⟨sk, e⟩
  simp

/-- The caret marker contains no newline. -/
theorem countNl_caret : countNl "^" = 0 := by decide

/-- The word separator contains no newline. -/
theorem countNl_space : countNl " " = 0 := by decide

/-- The field separator contains no newline. -/
theorem countNl_tab : countNl "\t" = 0 := by decide

/-- The line terminator is exactly one newline. -/
theorem countNl_nl : countNl "\n" = 1 := by decide

/-- The empty string contains no newline. -/
theorem countNl_empty : countNl "" = 0 := by decide

/-- Start tags touch neither `last_state` nor the sink. -/
theorem handleStart_frame (c : ParseCtx) (n : String) :
    (handleStart c n).last_state = c.last_state ∧ (handleStart c n).sink = c.sink := by
  unfold handleStart
  repeat' split
  all_goals simp

/-- End tags touch only the state: `last_state`, `in_content` and the sink
are unchanged. -/
theorem handleEnd_frame (c : ParseCtx) (n : String) :
    (handleEnd c n).last_state = c.last_state ∧ (handleEnd c n).sink = c.sink ∧
    (handleEnd c n).in_content = c.in_content := by
  unfold handleEnd
  repeat' split
  all_goals simp

/-- Text emission never changes the parser state. -/
theorem emitText_state (cfg : UsfxConfig) (c : ParseCtx) (p : Option String) :
    (emitText cfg c p).1.state = c.state := by
  obtain ⟨st, ic, ls, w, cp⟩ := c
  rcases p with _ | raw <;> cases st <;> cases ic <;> rcases cp with _ | n <;>
    simp [emitText, textGate, writeOut, Sink.write] <;>
    (repeat' split) <;> simp_all

/-- Text emission never changes the content flag. -/
theorem emitText_in_content (cfg : UsfxConfig) (c : ParseCtx) (p : Option String) :
    (emitText cfg c p).1.in_content = c.in_content := by
  obtain ⟨st, ic, ls, w, cp⟩ := c
  rcases p with _ | raw <;> cases st <;> cases ic <;> rcases cp with _ | n <;>
    simp [emitText, textGate, writeOut, Sink.write] <;>
    (repeat' split) <;> simp_all

/-- Text emission itself never changes `last_state` (the update happens after
it, in `handleText`). -/
theorem emitText_last_state (cfg : UsfxConfig) (c : ParseCtx) (p : Option String) :
    (emitText cfg c p).1.last_state = c.last_state := by
  obtain ⟨st, ic, ls, w, cp⟩ := c
  rcases p with _ | raw <;> cases st <;> cases ic <;> rcases cp with _ | n <;>
    simp [emitText, textGate, writeOut, Sink.write] <;>
    (repeat' split) <;> simp_all

/-- A text event never changes the parser state. -/
theorem handleText_state (cfg : UsfxConfig) (c : ParseCtx) (p : Option String) :
    (handleText cfg c p).1.state = c.state := by
  unfold handleText
  rcases h : emitText cfg c p with ⟨c', _ | e⟩ <;>
  · have hs := emitText_state cfg c p
    rw [h] at hs
    simpa using hs

/-- A successfully processed text event sets `last_state` to the state that
was current while it was processed. -/
theorem handleText_last_state_of_ok (cfg : UsfxConfig) (c : ParseCtx) (p : Option String)
    (h : (handleText cfg c p).2 = none) :
    (handleText cfg c p).1.last_state = c.state := by
  unfold handleText at *
  rcases he : emitText cfg c p with ⟨c', _ | e⟩
  · have hs := emitText_state cfg c p
    rw [he] at hs
    simp only [he]
    simpa using hs
  · rw [he] at h
    simp at h

/-- The attribute loop never changes `state` or `last_state`. -/
theorem handleVAttrs_frame (attrs : List AttrResult) (c : ParseCtx) :
    (handleVAttrs c attrs).1.state = c.state ∧
    (handleVAttrs c attrs).1.last_state = c.last_state := by
  induction attrs generalizing c with
  | nil => simp [handleVAttrs]
  | cons a rest ih =>
    unfold handleVAttrs
    rcases a with _ | ⟨key, value⟩
    · simp
    · dsimp only
      split
      · rcases value with _ | v
        · simp
        · dsimp only
          split
          · rename_i p0 p1 p2 heq
            rcases hw : writeOut c (p0 ++ "\t" ++ p1 ++ "\t" ++ p2 ++ "\t") with ⟨c1, e⟩
            have hf := writeOut_frame c (p0 ++ "\t" ++ p1 ++ "\t" ++ p2 ++ "\t")
            rw [hw] at hf
            dsimp only at hf
            rcases e with _ | err <;> dsimp only
            · exact ⟨Eq.trans (ih { c1 with in_content := true }).1 hf.1,
                     Eq.trans (ih { c1 with in_content := true }).2 hf.2.2⟩
            · exact ⟨hf.1, hf.2.2⟩
          · exact ih c
      · exact ih c

/-- A self-closing element never changes `last_state`. -/
theorem handleEmpty_last_state (c : ParseCtx) (n : String) (attrs : List AttrResult) :
    (handleEmpty c n attrs).1.last_state = c.last_state := by
  unfold handleEmpty
  split
  · exact (writeOut_frame { c with state := ParserState.Initial } "\n").2.2
  · split
    · exact (handleVAttrs_frame attrs c).2
    · rfl

/-! ### Loop unfolding lemmas -/

/-- One non-eof loop iteration: step, then continue on success or stop on
error. -/
theorem runEvents_cons_ne_eof (cfg : UsfxConfig) (c : ParseCtx) (r : ReadResult)
    (rs : List ReadResult) (hne : r ≠ ReadResult.ok XmlEvent.eof) :
    runEvents cfg c (r :: rs) =
      match step cfg c r with
      | (c', none) => runEvents cfg c' rs
      | (c', some e) => (c', some e) := by
  conv_lhs => unfold runEvents
  split
  · exact absurd rfl hne
  · rfl

/-- Counting self-closing `ve` events commutes with one non-eof step. -/
theorem countVe_cons (r : ReadResult) (rs : List ReadResult)
    (hne : r ≠ ReadResult.ok XmlEvent.eof) :
    countVe (r :: rs) = veInc r + countVe rs := by
  conv_lhs => unfold countVe
  unfold veInc
  rcases r with ev | _
  · cases ev <;> simp_all
  · simp

/-! ### Newline bookkeeping through the handlers -/

/-- A successful text emission adds no newline to the output, provided the
effective text is newline-free. -/
theorem emitText_countNl (cfg : UsfxConfig) (c : ParseCtx) (p : Option String)
    (c' : ParseCtx) (h : emitText cfg c p = (c', none))
    (hp : ∀ raw, p = some raw → countNl (effText cfg raw) = 0) :
    countNl c'.sink.written = countNl c.sink.written := by
  rcases p with _ | raw
  · unfold emitText at h
    split at h
    · simp at h
    · simp only [Prod.mk.injEq] at h
      rw [← h.1]
  · have hr := hp raw rfl
    unfold emitText at h
    split at h
    · dsimp only at h
      (repeat' split at h) <;>
        first
          | (simp only [Prod.mk.injEq] at h
             rw [← h.1])
          | (have hw := writeOut_countNl _ _ _ h
             simp_all [countNl_append, countNl_caret, countNl_space])
    · simp only [Prod.mk.injEq] at h
      rw [← h.1]

/-- A successful text event adds no newline to the output, provided the
effective text is newline-free. -/
theorem handleText_countNl (cfg : UsfxConfig) (c : ParseCtx) (p : Option String)
    (c' : ParseCtx) (h : handleText cfg c p = (c', none))
    (hp : ∀ raw, p = some raw → countNl (effText cfg raw) = 0) :
    countNl c'.sink.written = countNl c.sink.written := by
  unfold handleText at h
  rcases he : emitText cfg c p with ⟨c1, e1⟩
  rw [he] at h
  rcases e1 with _ | e1
  · have h1 := emitText_countNl cfg c p c1 he hp
    simp only [Prod.mk.injEq] at h
    rw [← h.1]
    simpa using h1
  · simp at h

/-- A successful attribute loop adds no newline to the output, provided all
reference components are newline-free. -/
theorem handleVAttrs_countNl (attrs : List AttrResult) (c c' : ParseCtx)
    (h : handleVAttrs c attrs = (c', none))
    (ha : attrs.all attrNlFree = true) :
    countNl c'.sink.written = countNl c.sink.written := by
  induction attrs generalizing c with
  | nil =>
    simp only [handleVAttrs, Prod.mk.injEq] at h
    rw [← h.1]
  | cons a rest ih =>
    simp only [List.all_cons, Bool.and_eq_true] at ha
    obtain ⟨ha1, harest⟩ := ha
    unfold handleVAttrs at h
    rcases a with _ | ⟨key, value⟩
    · simp at h
    · dsimp only at h
      split at h
      · rcases value with _ | v
        · simp at h
        · dsimp only at h
          split at h
          · rename_i p0 p1 p2 heq
            rcases hw : writeOut c (p0 ++ "\t" ++ p1 ++ "\t" ++ p2 ++ "\t") with ⟨c1, e⟩
            rw [hw] at h
            rcases e with _ | err
            · dsimp only at h
              have hcnt := writeOut_countNl c _ c1 hw
              have hrest := ih { c1 with in_content := true } h harest
              dsimp only at hrest
              simp only [attrNlFree, heq, List.all_cons, List.all_nil,
                Bool.and_eq_true, beq_iff_eq] at ha1
              obtain ⟨hz0, hz1, hz2⟩ := ha1
              have hfrag : countNl (p0 ++ "\t" ++ p1 ++ "\t" ++ p2 ++ "\t") = 0 := by
                simp [countNl_append, countNl_tab, hz0, hz1, hz2]
              omega
            · dsimp only at h
              simp at h
          · exact ih c h harest
      · exact ih c h harest

/-- A successful self-closing element adds exactly one newline for `ve` and
none otherwise, provided all reference components are newline-free. -/
theorem handleEmpty_countNl (c : ParseCtx) (n : String) (attrs : List AttrResult)
    (c' : ParseCtx) (h : handleEmpty c n attrs = (c', none))
    (ha : attrs.all attrNlFree = true) :
    countNl c'.sink.written = countNl c.sink.written + (if n = "ve" then 1 else 0) := by
  unfold handleEmpty at h
  split at h
  · rename_i hv
    have hcnt := writeOut_countNl _ _ _ h
    dsimp only at hcnt
    rw [countNl_nl] at hcnt
    simp only [hv, if_pos]
    omega
  · split at h
    · rename_i hnv hv
      have := handleVAttrs_countNl attrs c c' h ha
      simp [this, hnv]
    · rename_i hnv hv
      simp only [Prod.mk.injEq] at h
      rw [← h.1]
      simp [hnv]

/-- One successful non-failing step adds `veInc` newlines to the output. -/
theorem step_countNl (cfg : UsfxConfig) (c : ParseCtx) (r : ReadResult)
    (c' : ParseCtx) (h : step cfg c r = (c', none))
    (hf : evNlFree cfg r = true) :
    countNl c'.sink.written = countNl c.sink.written + veInc r := by
  rcases r with ev | _
  · cases ev with
    | startTag n =>
      simp only [step, Prod.mk.injEq] at h
      rw [← h.1]
      simp [(handleStart_frame c n).2, veInc]
    | endTag n =>
      simp only [step, Prod.mk.injEq] at h
      rw [← h.1]
      simp [(handleEnd_frame c n).2.1, veInc]
    | text p =>
      simp only [step] at h
      have hp : ∀ raw, p = some raw → countNl (effText cfg raw) = 0 := by
        intro raw heq
        subst heq
        simpa [evNlFree] using hf
      simpa [veInc] using handleText_countNl cfg c p c' h hp
    | emptyTag n attrs =>
      simp only [step] at h
      have ha : attrs.all attrNlFree = true := by simpa [evNlFree] using hf
      simpa [veInc] using handleEmpty_countNl c n attrs c' h ha
    | eof =>
      simp only [step, Prod.mk.injEq] at h
      rw [← h.1]
      simp [veInc]
    | other =>
      simp only [step, Prod.mk.injEq] at h
      rw [← h.1]
      simp [veInc]
  · simp [step] at h

/-- Over a whole successful run, the number of newline characters written
equals the number of self-closing `ve` events processed, provided every
event is newline-free. -/
theorem runEvents_countNl (cfg : UsfxConfig) (es : List ReadResult) (c c' : ParseCtx)
    (h : runEvents cfg c es = (c', none))
    (hf : ∀ r ∈ es, evNlFree cfg r = true) :
    countNl c'.sink.written = countNl c.sink.written + countVe es := by
  induction es generalizing c with
  | nil =>
    simp only [runEvents, Prod.mk.injEq] at h
    rw [← h.1]
    simp [countVe]
  | cons r rs ih =>
    by_cases he : r = ReadResult.ok XmlEvent.eof
    · subst he
      simp only [runEvents, Prod.mk.injEq] at h
      rw [← h.1]
      simp [countVe]
    · rw [runEvents_cons_ne_eof cfg c r rs he] at h
      rcases hs : step cfg c r with ⟨c1, e1⟩
      rw [hs] at h
      rcases e1 with _ | e1
      · have h1 := step_countNl cfg c r c1 hs (hf r (by simp))
        have h2 := ih c1 h (fun x hx => hf x (by simp [hx]))
        rw [countVe_cons r rs he]
        omega
      · simp at h

/-- The run loop never resumes after an error: running a prefix that fails
gives the same failure, the same final context and the same output as
running any extension of it — no further event is processed and no further
write occurs. -/
theorem runEvents_error_frozen (cfg : UsfxConfig) (c c' : ParseCtx)
    (err : ParserError) (es1 es2 : List ReadResult)
    (h : runEvents cfg c es1 = (c', some err)) :
    runEvents cfg c (es1 ++ es2) = (c', some err) := by
  induction es1 generalizing c with
  | nil => simp [runEvents] at h
  | cons r rs ih =>
    by_cases he : r = ReadResult.ok XmlEvent.eof
    · subst he
      simp [runEvents] at h
    · rw [runEvents_cons_ne_eof cfg c r rs he] at h
      rw [List.cons_append, runEvents_cons_ne_eof cfg c r (rs ++ es2) he]
      rcases hs : step cfg c r with ⟨c1, e1⟩
      rw [hs] at h
      rcases e1 with _ | e1
      · exact ih c1 h
      · exact h

/-- A verse-start whose `bcv` value does not split into exactly three
components is a silent no-op: nothing is written, no flag changes, no
error. -/
theorem handleEmpty_malformed_bcv (d : ParseCtx) (v : String)
    (hlen : (splitChar '.' v).length ≠ 3) :
    handleEmpty d "v" [AttrResult.ok "bcv" (some v)] = (d, none) := by
  rcases hsp : splitChar '.' v with _ | ⟨a, _ | ⟨b, _ | ⟨e, _ | ⟨f, t⟩⟩⟩⟩ <;>
    simp_all [handleEmpty, handleVAttrs, writeOut, Sink.write]

/-! ### Concrete contexts and configurations used by the claim witnesses -/

/-- A configuration with text trimming disabled. -/
def noTrimConfig : UsfxConfig :=
  { buffer_size := 1024, trim_text := false, debug_output := false }

/-- A context inside an active verse body with an empty, never-failing sink. -/
def verseCtx : ParseCtx :=
  { state := ParserState.InVerse, in_content := true,
    last_state := ParserState.Initial, sink := { written := "", cap := none } }

/-- A context inside a footnote while a verse record is open. -/
def footnoteCtx : ParseCtx :=
  { state := ParserState.InFootnote, in_content := true,
    last_state := ParserState.Initial, sink := { written := "", cap := none } }

/-- A context inside a word token whose preceding text event was processed in
state `Initial`. -/
def wordCtx : ParseCtx :=
  { state := ParserState.InWord, in_content := true,
    last_state := ParserState.Initial, sink := { written := "", cap := none } }

/-- A context with a verse open and a sink that rejects every further
write (capacity zero). -/
def fullCtx : ParseCtx :=
  { state := ParserState.Initial, in_content := true,
    last_state := ParserState.Initial, sink := { written := "", cap := some 0 } }

/-! ### Gate characterisation -/

/-- The emission gate is down exactly when the content flag is cleared or
the state is one of the four suppressing states. -/
theorem textGate_false_of_suppressed (c : ParseCtx)
    (h : c.in_content = false ∨ c.state = ParserState.InFootnote ∨
         c.state = ParserState.InCrossReference ∨ c.state = ParserState.InSection ∨
         c.state = ParserState.Book) : textGate c = false := by
  obtain ⟨st, ic, ls, w, cp⟩ := c
  rcases h with h | h | h | h | h <;> simp_all [textGate]

/-! ### Claims -/

/-- C5: for every text event, if `ContentFlag` is false or the current state
is one of `InFootnote`, `InCrossReference`, `InSection`, `Book`, no output
characters are produced for that event (the sink is untouched, so even a
payload that fails to unescape is never examined), while the bookkeeping
continues correctly: the parse does not fail, the state and the content flag
keep their values, and `last_state` receives its usual update. -/
theorem claim_C5_suppression (cfg : UsfxConfig) (c : ParseCtx) (p : Option String)
    (h : c.in_content = false ∨ c.state = ParserState.InFootnote ∨
         c.state = ParserState.InCrossReference ∨ c.state = ParserState.InSection ∨
         c.state = ParserState.Book) :
    handleText cfg c p = ({ c with last_state := c.state }, none) := by
  have hg := textGate_false_of_suppressed c h
  simp [handleText, emitText, hg]

/-- Witness for C5: a text event inside a footnote with the verse record
open writes nothing and only updates `last_state`. -/
theorem claim_C5_suppression_witness :
    handleText UsfxConfig.default footnoteCtx (some "hidden") =
      ({ footnoteCtx with last_state := ParserState.InFootnote }, none) :=
  claim_C5_suppression UsfxConfig.default footnoteCtx (some "hidden")
    (Or.inr (Or.inl rfl))

/-- C6: for every text event processed in state `InVerse` with `ContentFlag`
true (and a sink that accepts the write), the text as presented to the
emission match — the payload after the configured trimming, see C10 — is
written verbatim, except that a text equal exactly to a single newline
character is replaced by the marker glyph `^`; the replacement `^` contains
no newline, so no actual newline is emitted in that case. -/
theorem claim_C6_newline_marker (cfg : UsfxConfig) (c : ParseCtx) (raw : String)
    (hc : c.in_content = true) (hs : c.state = ParserState.InVerse)
    (hcap : c.sink.cap = none) :
    handleText cfg c (some raw) =
      ({ c with last_state := ParserState.InVerse,
                sink := { written := c.sink.written ++
                            (if effText cfg raw = "\n" then "^" else effText cfg raw),
                          cap := none } }, none) ∧
    countNl "^" = 0 := by
  obtain ⟨st, ic, ls, w, cp⟩ := c
  dsimp only at hc hs hcap
  subst hc hs hcap
  refine ⟨?_, by decide⟩
  by_cases ht : effText cfg raw = "\n" <;>
    simp [handleText, emitText, textGate, writeOut, Sink.write, ht]

/-- Witness for C6: with trimming disabled, a text event whose payload is
exactly one newline, in verse-body state with content enabled, emits `^`. -/
theorem claim_C6_newline_marker_witness :
    handleText noTrimConfig verseCtx (some "\n") =
      ({ verseCtx with last_state := ParserState.InVerse,
                       sink := { written := "" ++
                                   (if effText noTrimConfig "\n" = "\n" then "^"
                                    else effText noTrimConfig "\n"),
                                 cap := none } }, none) ∧
    countNl "^" = 0 :=
  claim_C6_newline_marker noTrimConfig verseCtx "\n" rfl rfl rfl

/-- C10: with `trim_text` true (the default configuration value), trimming is
applied before the emission rules, so a raw payload of exactly one newline
trims to the empty string, the comparison against `"\n"` in state `InVerse`
fails, and the empty string is written verbatim — the sink is unchanged and
no `^` marker appears. -/
theorem claim_C10_trim_defeats_marker (cfg : UsfxConfig) (c : ParseCtx)
    (hc : c.in_content = true) (hs : c.state = ParserState.InVerse)
    (htrim : cfg.trim_text = true) (hcap : c.sink.cap = none) :
    UsfxConfig.default.trim_text = true ∧
    effText cfg "\n" = "" ∧
    ("" = "\n") = False ∧
    handleText cfg c (some "\n") = ({ c with last_state := ParserState.InVerse }, none) := by
  obtain ⟨st, ic, ls, w, cp⟩ := c
  dsimp only at hc hs hcap
  subst hc hs hcap
  have he : effText cfg "\n" = "" := by
    simp only [effText, htrim, if_true]
    decide
  refine ⟨by decide, he, by simp, ?_⟩
  simp [handleText, emitText, textGate, writeOut, Sink.write, he]

/-- Witness for C10: under the default configuration, a raw newline payload
in verse-body state with content enabled leaves the output untouched. -/
theorem claim_C10_trim_defeats_marker_witness :
    UsfxConfig.default.trim_text = true ∧
    effText UsfxConfig.default "\n" = "" ∧
    ("" = "\n") = False ∧
    handleText UsfxConfig.default verseCtx (some "\n") =
      ({ verseCtx with last_state := ParserState.InVerse }, none) :=
  claim_C10_trim_defeats_marker UsfxConfig.default verseCtx rfl rfl rfl rfl

/-- C4: for every text event processed in state `InWord` with `ContentFlag`
true (and a sink that accepts the write): after `last_state = Initial` the
text is written with no leading separator; after `last_state = InWord`
nothing is written; after every other `last_state` the text is written
prefixed by exactly one space. In particular the word tokens `In`, `the`,
`beginning` wrapped in word markers inside an active verse `GEN.1.1`
terminated by a verse-end marker yield exactly the output line
`GEN\tab 1\tab 1\tab In the beginning\newline` and no error. -/
theorem claim_C4_word_spacing (cfg : UsfxConfig) (c : ParseCtx) (raw : String)
    (hc : c.in_content = true) (hs : c.state = ParserState.InWord)
    (hcap : c.sink.cap = none) :
    (c.last_state = ParserState.Initial →
       handleText cfg c (some raw) =
         ({ c with last_state := ParserState.InWord,
                   sink := { written := c.sink.written ++ effText cfg raw,
                             cap := none } }, none))
  ∧ (c.last_state = ParserState.InWord →
       handleText cfg c (some raw) = ({ c with last_state := ParserState.InWord }, none))
  ∧ (c.last_state ≠ ParserState.Initial → c.last_state ≠ ParserState.InWord →
       handleText cfg c (some raw) =
         ({ c with last_state := ParserState.InWord,
                   sink := { written := c.sink.written ++ (" " ++ effText cfg raw),
                             cap := none } }, none))
  ∧ (parseUsfx UsfxConfig.default genesisEvents).1.sink.written =
      "GEN\t1\t1\tIn the beginning\n"
  ∧ (parseUsfx UsfxConfig.default genesisEvents).2 = none := by
  obtain ⟨st, ic, ls, w, cp⟩ := c
  dsimp only at hc hs hcap
  subst hc hs hcap
  refine ⟨?_, ?_, ?_, by decide, by decide⟩
  · intro h
    dsimp only at h
    subst h
    simp [handleText, emitText, textGate, writeOut, Sink.write]
  · intro h
    dsimp only at h
    subst h
    simp [handleText, emitText, textGate, writeOut, Sink.write]
  · intro h1 h2
    dsimp only at h1 h2
    cases ls <;> simp_all [handleText, emitText, textGate, writeOut, Sink.write]

/-- Witness for C4: a word token after a text event processed in `Initial`
is written bare, and the `GEN.1.1` scenario produces its line. -/
theorem claim_C4_word_spacing_witness :
    handleText UsfxConfig.default wordCtx (some "In") =
      ({ wordCtx with last_state := ParserState.InWord,
                      sink := { written := "" ++ effText UsfxConfig.default "In",
                                cap := none } }, none) ∧
    (parseUsfx UsfxConfig.default genesisEvents).1.sink.written =
      "GEN\t1\t1\tIn the beginning\n" :=
  ⟨(claim_C4_word_spacing UsfxConfig.default wordCtx "In" rfl rfl rfl).1 rfl,
   (claim_C4_word_spacing UsfxConfig.default wordCtx "In" rfl rfl rfl).2.2.2.1⟩

/-- C7: for start and end tags the state transition is a function of the tag
name alone as given by the transition table — start `s` goes to `InSection`
and clears the content flag, start `w` and `v` go to `InWord`/`InVerse` only
when the content flag is set (as the table's qualification says), start
`book`, `f`, `x`, `ve` go to `Book`, `InFootnote`, `InCrossReference`,
`VerseEnd`; end `w` and `v` go to `InVerse`; end `s`, `f`, `x`, `ve` go to
`Initial` — and any tag name outside the table leaves the context completely
unchanged without raising an error. -/
theorem claim_C7_transition_table (c : ParseCtx) (name : String)
    (h : name ∉ (["book", "ve", "w", "v", "s", "f", "x"] : List String)) :
    handleStart c "s" = { c with state := ParserState.InSection, in_content := false }
  ∧ handleStart c "w" = (if c.in_content then { c with state := ParserState.InWord } else c)
  ∧ handleStart c "v" = (if c.in_content then { c with state := ParserState.InVerse } else c)
  ∧ handleStart c "book" = { c with state := ParserState.Book }
  ∧ handleStart c "f" = { c with state := ParserState.InFootnote }
  ∧ handleStart c "x" = { c with state := ParserState.InCrossReference }
  ∧ handleStart c "ve" = { c with state := ParserState.VerseEnd }
  ∧ handleEnd c "w" = { c with state := ParserState.InVerse }
  ∧ handleEnd c "v" = { c with state := ParserState.InVerse }
  ∧ handleEnd c "s" = { c with state := ParserState.Initial }
  ∧ handleEnd c "f" = { c with state := ParserState.Initial }
  ∧ handleEnd c "x" = { c with state := ParserState.Initial }
  ∧ handleEnd c "ve" = { c with state := ParserState.Initial }
  ∧ handleStart c name = c
  ∧ handleEnd c name = c := by
  simp only [List.mem_cons, List.not_mem_nil, or_false, not_or] at h
  obtain ⟨h1, h2, h3, h4, h5, h6, h7⟩ := h
  refine ⟨?_, ?_, ?_, ?_, ?_, ?_, ?_, ?_, ?_, ?_, ?_, ?_, ?_, ?_, ?_⟩ <;>
    simp [handleStart, handleEnd, h1, h2, h3, h4, h5, h6, h7]

/-- Witness for C7 at the paragraph tag `p`, which is outside the table. -/
theorem claim_C7_transition_table_witness :
    handleStart verseCtx "s" =
      { verseCtx with state := ParserState.InSection, in_content := false }
  ∧ handleStart verseCtx "w" =
      (if verseCtx.in_content then { verseCtx with state := ParserState.InWord }
       else verseCtx)
  ∧ handleStart verseCtx "v" =
      (if verseCtx.in_content then { verseCtx with state := ParserState.InVerse }
       else verseCtx)
  ∧ handleStart verseCtx "book" = { verseCtx with state := ParserState.Book }
  ∧ handleStart verseCtx "f" = { verseCtx with state := ParserState.InFootnote }
  ∧ handleStart verseCtx "x" = { verseCtx with state := ParserState.InCrossReference }
  ∧ handleStart verseCtx "ve" = { verseCtx with state := ParserState.VerseEnd }
  ∧ handleEnd verseCtx "w" = { verseCtx with state := ParserState.InVerse }
  ∧ handleEnd verseCtx "v" = { verseCtx with state := ParserState.InVerse }
  ∧ handleEnd verseCtx "s" = { verseCtx with state := ParserState.Initial }
  ∧ handleEnd verseCtx "f" = { verseCtx with state := ParserState.Initial }
  ∧ handleEnd verseCtx "x" = { verseCtx with state := ParserState.Initial }
  ∧ handleEnd verseCtx "ve" = { verseCtx with state := ParserState.Initial }
  ∧ handleStart verseCtx "p" = verseCtx
  ∧ handleEnd verseCtx "p" = verseCtx :=
  claim_C7_transition_table verseCtx "p" (by decide)

/-- C8: a successfully processed text event sets `last_state` to the state
that was current while it was processed, whether or not it produced output,
and no other event kind updates `last_state`. -/
theorem claim_C8_last_state_discipline (cfg : UsfxConfig) (c : ParseCtx)
    (p : Option String) (r : ReadResult)
    (hr : ∀ pl, r ≠ ReadResult.ok (XmlEvent.text pl)) :
    ((step cfg c (ReadResult.ok (XmlEvent.text p))).2 = none →
       (step cfg c (ReadResult.ok (XmlEvent.text p))).1.last_state = c.state)
  ∧ (step cfg c r).1.last_state = c.last_state := by
  constructor
  · intro h
    exact handleText_last_state_of_ok cfg c p h
  · rcases r with ev | _
    · cases ev with
      | startTag n => exact (handleStart_frame c n).1
      | endTag n => exact (handleEnd_frame c n).1
      | text pl => exact absurd rfl (hr pl)
      | emptyTag n attrs => exact handleEmpty_last_state c n attrs
      | eof => rfl
      | other => rfl
    · rfl

/-- Witness for C8: a suppressed text event (no output) still records the
footnote state, and a start tag leaves `last_state` alone. -/
theorem claim_C8_last_state_discipline_witness :
    ((step UsfxConfig.default footnoteCtx
        (ReadResult.ok (XmlEvent.text (some "hidden")))).2 = none →
       (step UsfxConfig.default footnoteCtx
          (ReadResult.ok (XmlEvent.text (some "hidden")))).1.last_state =
         footnoteCtx.state)
  ∧ (step UsfxConfig.default footnoteCtx (ReadResult.ok (XmlEvent.startTag "s"))).1.last_state =
      footnoteCtx.last_state :=
  claim_C8_last_state_discipline UsfxConfig.default footnoteCtx (some "hidden")
    (ReadResult.ok (XmlEvent.startTag "s")) (fun pl h => by simp at h)

/-- C1, counterexample: the claim says a successful self-closing verse-start
"sets the state so that subsequent text is eligible for emission", but the
handler sets only the content flag and never assigns the state. When the
verse-start occurs while the state is `InFootnote`, the reference prefix is
written and the content flag is set, yet the state stays `InFootnote` and the
immediately following text event emits nothing — the output still ends at
the reference prefix. -/
theorem claim_C1_counterexample :
    (parseUsfx UsfxConfig.default verseInFootnoteEvents).2 = none
  ∧ (parseUsfx UsfxConfig.default verseInFootnoteEvents).1.sink.written = "GEN\t1\t1\t"
  ∧ (parseUsfx UsfxConfig.default verseInFootnoteEvents).1.in_content = true
  ∧ (parseUsfx UsfxConfig.default verseInFootnoteEvents).1.state = ParserState.InFootnote := by
  decide

/-- C1, amended: for a self-closing verse-start event carrying an attribute
with key `bcv`, if splitting the value on `.` yields exactly three
components, the parser writes `component0 \tab component1 \tab component2
\tab` (no newline), sets the content flag to true, and leaves the state (and
`last_state`) unchanged — so subsequent text is eligible for emission only
when that unchanged state is not a suppressing one; if the split yields a
number of components different from three, nothing is written, the content
flag keeps its prior value, and parsing continues without error. -/
theorem claim_C1_amended (c : ParseCtx) (v p0 p1 p2 : String)
    (hcap : c.sink.cap = none) :
    (splitChar '.' v = [p0, p1, p2] →
       handleEmpty c "v" [AttrResult.ok "bcv" (some v)] =
         ({ c with in_content := true,
                   sink := { written := c.sink.written ++
                               (p0 ++ "\t" ++ p1 ++ "\t" ++ p2 ++ "\t"),
                             cap := none } }, none))
  ∧ ((splitChar '.' v).length ≠ 3 →
       handleEmpty c "v" [AttrResult.ok "bcv" (some v)] = (c, none)) := by
  obtain ⟨st, ic, ls, w, cp⟩ := c
  dsimp only at hcap
  subst hcap
  constructor
  · intro hsplit
    simp [handleEmpty, handleVAttrs, hsplit, writeOut, Sink.write]
  · intro hlen
    exact handleEmpty_malformed_bcv _ v hlen

/-- Witness for the amended C1: a well-formed `bcv` reference writes its
tab-separated prefix and raises the content flag; a two-component reference
is a silent no-op. -/
theorem claim_C1_amended_witness :
    handleEmpty (initCtx none) "v" [AttrResult.ok "bcv" (some "GEN.1.1")] =
      ({ initCtx none with
           in_content := true,
           sink := { written := "" ++ ("GEN" ++ "\t" ++ "1" ++ "\t" ++ "1" ++ "\t"),
                     cap := none } }, none)
  ∧ handleEmpty (initCtx none) "v" [AttrResult.ok "bcv" (some "GEN.1")] =
      (initCtx none, none) :=
  ⟨(claim_C1_amended (initCtx none) "GEN.1.1" "GEN" "1" "1" rfl).1 (by decide),
   (claim_C1_amended (initCtx none) "GEN.1" "GEN" "1" "1" rfl).2 (by decide)⟩

/-- C2, counterexample: the claim says a self-closing verse-end sets the
content flag to false, so that the flag is true only between a verse-start
and the next verse-end; but the handler only sets the state and writes the
terminator — after `<v bcv="GEN.1.1"/><ve/>` the content flag is still
true. -/
theorem claim_C2_counterexample :
    (parseUsfx UsfxConfig.default verseThenEndEvents).2 = none
  ∧ (parseUsfx UsfxConfig.default verseThenEndEvents).1.state = ParserState.Initial
  ∧ (parseUsfx UsfxConfig.default verseThenEndEvents).1.sink.written = "GEN\t1\t1\t\n"
  ∧ (parseUsfx UsfxConfig.default verseThenEndEvents).1.in_content = true := by
  decide

/-- C2, amended: for every self-closing verse-end event the parser sets the
state to `Initial` and writes exactly one line terminator, but it leaves the
content flag unchanged — the flag is not cleared at verse end (only a
section start clears it), so its being true is not confined to the span
between a verse-start and the next verse-end. -/
theorem claim_C2_amended (c : ParseCtx) (attrs : List AttrResult)
    (hcap : c.sink.cap = none) :
    handleEmpty c "ve" attrs =
      ({ c with state := ParserState.Initial,
                sink := { written := c.sink.written ++ "\n", cap := none } }, none) := by
  obtain ⟨st, ic, ls, w, cp⟩ := c
  dsimp only at hcap
  subst hcap
  simp [handleEmpty, writeOut, Sink.write]

/-- Witness for the amended C2: a self-closing verse-end at the initial
context writes one newline and moves the state to `Initial`. -/
theorem claim_C2_amended_witness :
    handleEmpty (initCtx none) "ve" [] =
      ({ initCtx none with
           state := ParserState.Initial,
           sink := { written := "" ++ "\n", cap := none } }, none) :=
  claim_C2_amended (initCtx none) [] rfl

/-- C3, counterexample: the claim says the number of emitted
newline-terminated lines equals the number of well-formed
verse-start/verse-end pairs whose `bcv` split into exactly three components,
and that a verse whose `bcv` splits otherwise produces zero output lines.
But the self-closing `ve` handler writes its line terminator
unconditionally: after `<v bcv="GEN.1"/><ve/>` — zero valid references — the
output is exactly one newline character, i.e. one (empty) emitted line. -/
theorem claim_C3_counterexample :
    (parseUsfx UsfxConfig.default malformedBcvEvents).2 = none
  ∧ (parseUsfx UsfxConfig.default malformedBcvEvents).1.sink.written = "\n"
  ∧ countNl (parseUsfx UsfxConfig.default malformedBcvEvents).1.sink.written = 1 := by
  decide

/-- C3, amended: for every successful run whose text payloads and reference
components are newline-free, the number of emitted line terminators equals
the number of self-closing verse-end events processed — regardless of how
many verse-start markers parsed; a verse-start marker whose `bcv` value
splits into a number of components other than three writes nothing itself
and does not terminate the parse (but a following verse-end still writes its
terminator). -/
theorem claim_C3_amended (cfg : UsfxConfig) (es : List ReadResult) (c' : ParseCtx)
    (h : parseUsfx cfg es = (c', none))
    (hf : ∀ r ∈ es, evNlFree cfg r = true) :
    countNl c'.sink.written = countVe es
  ∧ (∀ d : ParseCtx, ∀ v : String, (splitChar '.' v).length ≠ 3 →
       handleEmpty d "v" [AttrResult.ok "bcv" (some v)] = (d, none)) := by
  constructor
  · have hrun := runEvents_countNl cfg es (initCtx none) c' h hf
    simpa [initCtx, countNl_empty] using hrun
  · intro d v hlen
    exact handleEmpty_malformed_bcv d v hlen

/-- Witness for the amended C3: one verse followed by one verse-end writes
exactly one line terminator. -/
theorem claim_C3_amended_witness :
    countNl ({ state := ParserState.Initial, in_content := true,
               last_state := ParserState.Initial,
               sink := { written := "GEN\t1\t1\t\n", cap := none } } : ParseCtx).sink.written
      = countVe verseThenEndEvents :=
  (claim_C3_amended UsfxConfig.default verseThenEndEvents
    { state := ParserState.Initial, in_content := true,
      last_state := ParserState.Initial,
      sink := { written := "GEN\t1\t1\t\n", cap := none } }
    (by decide) (by decide)).1

/-- C9: whenever a tokenizer error, a decoding/unescape failure, or an
output-write failure occurs, `parse` returns a typed failure immediately:
running any extension of a failing event sequence yields the same error,
the same final context and the same output (no retry, no further event
processed, no further write); a tokenizer error surfaces as `XmlError`; an
unescape failure on gated text, a failed attribute read, and a write failure
on the line terminator all surface as `ParseError`. -/
theorem claim_C9_abort_semantics (cfg : UsfxConfig) (c c' : ParseCtx)
    (err : ParserError) (es1 es2 : List ReadResult)
    (h : runEvents cfg c es1 = (c', some err)) :
    runEvents cfg c (es1 ++ es2) = (c', some err)
  ∧ step cfg c ReadResult.err = (c, some ParserError.XmlError)
  ∧ (textGate c = true →
       handleText cfg c none = (c, some (ParserError.ParseError "Failed to unescape text")))
  ∧ handleEmpty c "v" [AttrResult.err] = (c, some (ParserError.ParseError "attribute error"))
  ∧ (∀ n : Nat, c.sink.cap = some n → n < c.sink.written.length + ("\n" : String).length →
       handleEmpty c "ve" [] =
         ({ c with state := ParserState.Initial },
          some (ParserError.ParseError "write failed"))) := by
  refine ⟨runEvents_error_frozen cfg c c' err es1 es2 h, rfl, ?_, ?_, ?_⟩
  · intro hg
    simp [handleText, emitText, hg]
  · simp [handleEmpty, handleVAttrs]
  · intro n hcap hlt
    have hcond : ¬(c.sink.written.length + ("\n" : String).length ≤ n) := by omega
    simp [handleEmpty, writeOut, Sink.write, hcap, hcond]

/-- Witness for C9 at a concrete failing stream and a capacity-zero sink:
the tokenizer error freezes the run over an extension, and each error kind
is exercised. -/
theorem claim_C9_abort_semantics_witness :
    runEvents UsfxConfig.default fullCtx
        ([ReadResult.err] ++ [ReadResult.ok (XmlEvent.emptyTag "ve" [])]) =
      (fullCtx, some ParserError.XmlError)
  ∧ handleText UsfxConfig.default fullCtx none =
      (fullCtx, some (ParserError.ParseError "Failed to unescape text"))
  ∧ handleEmpty fullCtx "v" [AttrResult.err] =
      (fullCtx, some (ParserError.ParseError "attribute error"))
  ∧ handleEmpty fullCtx "ve" [] =
      ({ fullCtx with state := ParserState.Initial },
       some (ParserError.ParseError "write failed")) := by
  have h := claim_C9_abort_semantics UsfxConfig.default fullCtx fullCtx
    ParserError.XmlError [ReadResult.err] [ReadResult.ok (XmlEvent.emptyTag "ve" [])] rfl
  exact ⟨h.1, h.2.2.1 (by decide), h.2.2.2.1, h.2.2.2.2 0 rfl (by decide)⟩

end UsfxToTsv
